import Mathlib

/-!
Verification development for the Tripy trip-planning chatbot repository.

The Python sources are shallowly embedded: pure string/list manipulation is
translated to Lean functions; external effects (the weather provider HTTP
calls, the hosted model, Python float parsing and str.title) are passed in as
explicit oracle arguments; Python exceptions are modelled with `Except`, and
a Python `try/except` boundary becomes a `match` on the `Except` value.
Machine floats from the weather API are modelled as rationals.
-/

/-! ## String utilities (character-list based, so every proof obligation is
kernel-computable).  They model Python's `in`, `str.split(sep)[0]` and
`str.split()` operations used by the sources. -/

/-- Boolean test that the first list leads the second (pattern at the head). -/
def chunkLeads : List Char → List Char → Bool
  | [], _ => true
  | _ :: _, [] => false
  | a :: as, b :: bs => a == b && chunkLeads as bs

/-- Boolean substring test: does `pat` occur somewhere inside `l`?
Models the Python expression `pat in s`. -/
def containsSub (pat : List Char) : List Char → Bool
  | [] => chunkLeads pat []
  | c :: rest => chunkLeads pat (c :: rest) || containsSub pat rest

/-- Substring test on strings, via the underlying character lists. -/
def strContains (s pat : String) : Bool :=
  containsSub pat.data s.data

/-- Characters of `l` strictly before the first occurrence of `pat`; the whole
list when `pat` does not occur.  Models Python `s.split(pat)[0]`. -/
def takeBefore (pat : List Char) : List Char → List Char
  | [] => []
  | c :: rest =>
    if chunkLeads pat (c :: rest) then [] else c :: takeBefore pat rest

/-- Whitespace split dropping empty fields, as Python `s.split()` does.
The first argument accumulates the current (reversed) field. -/
def splitWsAux (cur : List Char) : List Char → List (List Char)
  | [] => if cur.isEmpty then [] else [cur.reverse]
  | c :: rest =>
    if c.isWhitespace then
      if cur.isEmpty then splitWsAux [] rest
      else cur.reverse :: splitWsAux [] rest
    else splitWsAux (c :: cur) rest

/-- Python `s.split()`: split on whitespace runs, dropping empty fields. -/
def splitWs (l : List Char) : List (List Char) := splitWsAux [] l

theorem chunkLeads_refl (l : List Char) : chunkLeads l l = true := by
  induction l with
  | nil => rfl
  | cons a as ih => simp [chunkLeads, ih]

theorem chunkLeads_append (pat l m : List Char) (h : chunkLeads pat l = true) :
    chunkLeads pat (l ++ m) = true := by
  induction pat generalizing l with
  | nil => rfl
  | cons a as ih =>
    cases l with
    | nil => simp [chunkLeads] at h
    | cons b bs =>
      simp only [chunkLeads, Bool.and_eq_true, beq_iff_eq] at h
      simp only [List.cons_append, chunkLeads, Bool.and_eq_true, beq_iff_eq]
      exact ⟨h.1, ih bs h.2⟩

theorem containsSub_of_leads (pat l : List Char) (h : chunkLeads pat l = true) :
    containsSub pat l = true := by
  cases l with
  | nil => simpa [containsSub] using h
  | cons c rest => simp [containsSub, h]

theorem containsSub_append_right (pat a b : List Char)
    (h : containsSub pat b = true) : containsSub pat (a ++ b) = true := by
  induction a with
  | nil => simpa using h
  | cons c cs ih => simp [containsSub, ih]

theorem containsSub_append_left (pat a b : List Char)
    (h : containsSub pat a = true) : containsSub pat (a ++ b) = true := by
  induction a with
  | nil =>
    cases pat with
    | nil => exact containsSub_of_leads [] b rfl
    | cons p ps => simp [containsSub, chunkLeads] at h
  | cons c cs ih =>
    simp only [containsSub, Bool.or_eq_true] at h
    rcases h with h | h
    · simp only [List.cons_append, containsSub, Bool.or_eq_true]
      exact Or.inl (by simpa using chunkLeads_append pat (c :: cs) b h)
    · simp [containsSub, ih h]

theorem containsSub_self (l : List Char) : containsSub l l = true :=
  containsSub_of_leads l l (chunkLeads_refl l)

theorem strContains_append_right (a b pat : String)
    (h : strContains b pat = true) : strContains (a ++ b) pat = true := by
  simpa [strContains, String.data_append] using
    containsSub_append_right pat.data a.data b.data (by simpa [strContains] using h)

theorem strContains_append_left (a b pat : String)
    (h : strContains a pat = true) : strContains (a ++ b) pat = true := by
  simpa [strContains, String.data_append] using
    containsSub_append_left pat.data a.data b.data (by simpa [strContains] using h)

theorem strContains_self (s : String) : strContains s s = true :=
  containsSub_self s.data

/-! ## Weather tool, single current-weather variant (`weather_tool.py`) -/

/-- Query string built by both `_run` variants:
`f"{city},{country_code}" if country_code else city`. -/
def weatherQuery (city : String) (countryCode : Option String) : String :=
  match countryCode with
  | some cc => city ++ "," ++ cc
  | none => city

/-- Travel-tip line chosen by `weather_tool.py` from the parsed temperature. -/
def tempAdviceV1 (temp : ℚ) : String :=
  if temp < 10 then "Pack warm clothes - great for indoor activities like museums!\n"
  else if temp > 25 then "Pack light clothes, sunscreen, and stay hydrated!\n"
  else "Comfortable weather - pack layers for versatility!\n"

/-- Message returned by `weather_tool.py` when the API key variable is unset. -/
def unavailableMsg : String :=
  "Weather service unavailable - OPENWEATHERMAP_API_KEY not set in environment variables."

/-- Shallow embedding of `WeatherTool._run` from `weather_tool.py`.
`apiKey` is the value of the OPENWEATHERMAP_API_KEY environment variable
(`none` = unset); `parseFloat` models Python `float(...)` on a token
(`none` = ValueError); `provider` models `OpenWeatherMapAPIWrapper.run`
(`.error e` = any exception raised during the lookup, carrying its `str(e)`
text).  The guarded token extraction mirrors
`result.split("°C")[0].split()[-1]`; an empty token list is the IndexError
that escapes to the outer `except` handler.  Every exception path ends in a
returned string, mirroring the `try/except` boundary of the source. -/
def weatherTool_run (apiKey : Option String) (parseFloat : String → Option ℚ)
    (provider : String → Except String String)
    (city : String) (countryCode : Option String) : String :=
  match apiKey with
  | none => unavailableMsg
  | some _ =>
    match provider (weatherQuery city countryCode) with
    | .error e =>
      "Failed to fetch weather: " ++ e ++ ". Please check your API key and city name."
    | .ok result =>
      let enhanced := result ++ "\n\nTravel Tips based on current conditions:\n"
      if containsSub "°C".data result.data then
        match (splitWs (takeBefore "°C".data result.data)).getLast? with
        | none =>
          "Failed to fetch weather: list index out of range. Please check your API key and city name."
        | some tok =>
          match parseFloat (String.mk tok) with
          | some temp => enhanced ++ tempAdviceV1 temp
          | none => enhanced ++ "Check the weather and pack accordingly!\n"
      else enhanced

/-! ## Weather tool, current + 5-day-forecast variant (`weather_wrapper_tool.py`) -/

/-- Payload of the current-conditions API call used by `format_weather`. -/
structure CurrentData where
  name : String
  country : String
  temp : ℚ
  feels_like : ℚ
  description : String
  humidity : ℤ
deriving DecidableEq, Repr

/-- One entry of `forecast_data['list']`. -/
structure ForecastEntry where
  dt_txt : String
  temp_min : ℚ
  temp_max : ℚ
  description : String
deriving DecidableEq, Repr

/-- Value stored under one date key of the `day_forecasts` dict. -/
structure DayAgg where
  temp_min : ℚ
  temp_max : ℚ
  description : String
deriving DecidableEq, Repr

/-- Python `round` on a rational: nearest integer, ties to even.  The
fractional part `q - floor q` equals `(q.num - floor q * q.den) / q.den`,
so comparing it with one half is done in integer arithmetic (the
denominator is positive), keeping the definition kernel-computable. -/
def roundHalfEven (q : ℚ) : ℤ :=
  let f := q.floor
  let twiceFrac := 2 * (q.num - f * (q.den : ℤ))
  if twiceFrac < (q.den : ℤ) then f
  else if (q.den : ℤ) < twiceFrac then f + 1
  else if f % 2 = 0 then f else f + 1

/-- Calendar date of a forecast entry: `item['dt_txt'].split(' ')[0]`. -/
def dateOf (e : ForecastEntry) : String :=
  String.mk (e.dt_txt.data.takeWhile (fun c => c != ' '))

/-- First-sighting bucket for a date: the entry's own values. -/
def initAgg (e : ForecastEntry) : DayAgg := ⟨e.temp_min, e.temp_max, e.description⟩

/-- Dict-update branch of the `day_forecasts` loop: min/max merge, keeping
the already-stored (first-seen) description. -/
def stepAgg (a : DayAgg) (e : ForecastEntry) : DayAgg :=
  ⟨min a.temp_min e.temp_min, max a.temp_max e.temp_max, a.description⟩

/-- One loop iteration of the `day_forecasts` accumulation in
`CustomWeatherWrapper.format_weather`.  Python dicts preserve insertion
order, so the dict is modelled as an association list that is updated in
place for a known date and extended at the end for a new one. -/
def insertEntry : List (String × DayAgg) → ForecastEntry → List (String × DayAgg)
  | [], e => [(dateOf e, initAgg e)]
  | (d, a) :: rest, e =>
    if d = dateOf e then (d, stepAgg a e) :: rest
    else (d, a) :: insertEntry rest e

/-- The `day_forecasts` dict built by `format_weather` over the whole
`forecast_data['list']`. -/
def day_forecasts (entries : List ForecastEntry) : List (String × DayAgg) :=
  entries.foldl insertEntry []

/-- The per-day summaries actually emitted:
`list(day_forecasts.items())[:5]`. -/
def forecastTop5 (entries : List ForecastEntry) : List (String × DayAgg) :=
  (day_forecasts entries).take 5

/-- One emitted forecast line.  `title` models Python `str.title`. -/
def forecastLine (title : String → String) (d : String) (a : DayAgg) : String :=
  d ++ ": " ++ toString (roundHalfEven a.temp_min) ++ "°C - "
    ++ toString (roundHalfEven a.temp_max) ++ "°C, " ++ title a.description ++ "\n"

/-- Travel-tip block of `format_weather`: temperature advice keyed on the
rounded current temperature, then the conditional humidity comfort note. -/
def travelTipsV2 (temperature : ℤ) (humidity : ℤ) : String :=
  (if temperature < 10 then
      "\nTravel Tips:\n * Pack warm clothes and enjoy indoor activities.\n"
   else if temperature > 25 then
      "\nTravel Tips:\n * Pack light clothes, stay hydrated, and use sunscreen.\n"
   else
      "\nTravel Tips:\n * Comfortable weather, pack layers for changes.\n")
  ++ (if humidity > 70 then " * High humidity, dress comfortably.\n" else "")

/-- Shallow embedding of `CustomWeatherWrapper.format_weather`.  A `none`
forecast payload models a falsy `forecast_data`. -/
def format_weather (title : String → String) (current : CurrentData)
    (forecast : Option (List ForecastEntry)) : String :=
  let temperature := roundHalfEven current.temp
  let feels := roundHalfEven current.feels_like
  let head := "Current weather in " ++ current.name ++ ", " ++ current.country ++ ":\n\n"
    ++ "Temperature: " ++ toString temperature ++ "°C (Feels like: "
    ++ toString feels ++ "°C)\n"
    ++ "Condition: " ++ title current.description ++ "\n"
    ++ "Humidity: " ++ toString current.humidity ++ "%\n"
  let body :=
    match forecast with
    | none => head
    | some entries =>
      head ++ "\n5-day Forecast:\n"
        ++ String.join ((forecastTop5 entries).map (fun p => forecastLine title p.1 p.2))
  body ++ travelTipsV2 temperature current.humidity

/-- Shallow embedding of `CustomWeatherWrapper.run` together with the
wrapper construction performed inside `WeatherTool._run`:
`construct` models `CustomWeatherWrapper()` (pydantic validation of the API
key may raise); `getCurrent`/`getForecast` model the two `_call_api`
fetches.  A successful `_call_api` returns a parsed JSON dict, which is
always truthy, hence the `some` forecast payload. -/
def customWrapper_run (construct : Except String Unit)
    (getCurrent : String → Except String CurrentData)
    (getForecast : String → Except String (List ForecastEntry))
    (title : String → String) (location : String) : Except String String := do
  construct
  let current ← getCurrent location
  let entries ← getForecast location
  pure (format_weather title current (some entries))

/-- Shallow embedding of `WeatherTool._run` from `weather_wrapper_tool.py`:
the whole body runs inside `try`, and any raised exception is caught and
rendered as a failure string. -/
def weatherWrapperTool_run (construct : Except String Unit)
    (getCurrent : String → Except String CurrentData)
    (getForecast : String → Except String (List ForecastEntry))
    (title : String → String)
    (city : String) (countryCode : Option String) : String :=
  match customWrapper_run construct getCurrent getForecast title
      (weatherQuery city countryCode) with
  | .ok s => s
  | .error e => "Failed to fetch weather: " ++ e

/-! ## Conversation store (`travel_chats.db` via SQLChatMessageHistory) -/

/-- A message persisted by the history library: its runtime class name
(HumanMessage, AIMessage, SystemMessage, ...) and its text content. -/
structure StoredMsg where
  className : String
  content : String
deriving DecidableEq, Repr

/-- One row of the `message_store` table; a `ChatDB` lists rows in rowid
order. -/
structure MsgRow where
  session_id : String
  msg : StoredMsg
deriving DecidableEq, Repr

/-- The `message_store` table as its list of rows in rowid order. -/
abbrev ChatDB := List MsgRow

/-- Modelled from the spec: `SQLChatMessageHistory.messages` is library code
not present in the repository; per spec 4.2 `read(session_id)` it returns
all turns of that session in insertion order (empty for an unknown
session). -/
def historyMessages (db : ChatDB) (sid : String) : List StoredMsg :=
  (db.filter (fun r => r.session_id = sid)).map (·.msg)

/-- Modelled from the spec: `SQLChatMessageHistory.clear` is library code
not present in the repository; per spec 4.2 `clear(session_id)` it removes
all turns of the session and nothing else. -/
def historyClear (db : ChatDB) (sid : String) : ChatDB :=
  db.filter (fun r => r.session_id ≠ sid)

/-- Modelled from the spec: the history library's message insertion
(`add_user_message` / `add_ai_message` / the history write-back); per spec
4.2 `append` inserts one new turn at the end of the table. -/
def historyAppend (db : ChatDB) (sid : String) (m : StoredMsg) : ChatDB :=
  db ++ [⟨sid, m⟩]

/-- Shallow embedding of `delete_chat_session` from `main.py`: clears the
session's history and reports success; the `except` branch returning
`False` is unreachable in the pure model. -/
def delete_chat_session (db : ChatDB) (sid : String) : ChatDB × Bool :=
  (historyClear db sid, true)

/-- Origin tag computed by `get_chat_history_for_session`:
`"human" if message.__class__.__name__ == 'HumanMessage' else "assistant"`. -/
def originOf (m : StoredMsg) : String :=
  if m.className = "HumanMessage" then "human" else "assistant"

/-- One entry of the list returned by `get_chat_history_for_session`. -/
structure HistEntry where
  origin : String
  content : String
deriving DecidableEq, Repr

/-- Shallow embedding of `get_chat_history_for_session` from `main.py`.
Every LangChain message object carries a `content` attribute, so the
`hasattr` guard keeps every row. -/
def get_chat_history_for_session (db : ChatDB) (sid : String) : List HistEntry :=
  (historyMessages db sid).map (fun m => ⟨originOf m, m.content⟩)

/-- First-occurrence deduplication with an explicit accumulator of already
seen elements. -/
def dkfAux (seen : List String) : List String → List String
  | [] => []
  | s :: rest =>
    if s ∈ seen then dkfAux seen rest else s :: dkfAux (s :: seen) rest

/-- Distinct elements of a list, keeping first occurrences in order. -/
def distinctKeepFirst (l : List String) : List String := dkfAux [] l

/-- Shallow embedding of `get_all_chat_sessions` from `main.py`.  `none`
models a database in which the `message_store` table does not exist yet
(the source returns `[]` before running the main query).  The SQLite query
`SELECT DISTINCT session_id FROM message_store ORDER BY rowid DESC` is
modelled, per the spec's "reverse row order", as the first occurrences of
the session ids scanning the rows from the last to the first — each
distinct id placed by its greatest rowid, descending. -/
def get_all_chat_sessions : Option ChatDB → List String
  | none => []
  | some rows => distinctKeepFirst ((rows.map (·.session_id)).reverse)

/-- Recency rank of a session: position of its last row counting back from
the end of the table (0 = the session owning the very last row). -/
def recency (rows : ChatDB) (s : String) : ℕ :=
  ((rows.map (·.session_id)).reverse).indexOf s

/-! ## Agent orchestration loop (`AgentExecutor` as built in `main.py`) -/

/-- Modelled from the spec: one model response inside the tool loop of spec
4.3 — either a final textual answer or a request to call a declared tool. -/
inductive ModelStep where
  | finish (answer : String)
  | toolCall (toolInput : String)
deriving DecidableEq, Repr

/-- Modelled from the spec: the "could not complete"-style result surfaced
when the iteration cap is exceeded. -/
def stoppedMsg : String := "Agent stopped due to iteration limit or time limit."

/-- Modelled from the spec: the bounded tool loop of the Agent Orchestrator
(spec 4.3); the `AgentExecutor` class is library code not present in the
repository — only its construction with `max_iterations=5` is.
`responses n` is the model's response after `n` executed tool calls; the
second component of the result counts the tool calls executed. -/
def agentLoop (responses : ℕ → ModelStep) : ℕ → ℕ → String × ℕ
  | 0, used => (stoppedMsg, used)
  | fuel + 1, used =>
    match responses used with
    | .finish a => (a, used)
    | .toolCall _ => agentLoop responses fuel (used + 1)

/-- The executor invocation as configured in `get_travel_agent`: the tool
loop run with the source's `max_iterations=5`. -/
def agent_executor_invoke (responses : ℕ → ModelStep) : String × ℕ :=
  agentLoop responses 5 0

/-! ## Streaming turn and persistence (`streamlit_app.py`) -/

/-- Oracle for one completed turn of the travel agent as consumed by
`get_chatbot_response_stream`: the chunk contents produced by
`StreamableAgent.stream` (each chunk's `content`), the outcome of the
follow-up `StreamableAgent.invoke` call — `.ok out` meaning that separate
agent run succeeded with final output `out`, `.error` meaning it raised —
and whether the direct fallback save succeeds. -/
structure TurnOracle where
  streamChunks : List String
  invokeResult : Except String String
  fallbackOk : Bool

/-- Concatenation of the streamed fragments, as `full_response`
accumulates them. -/
def concatChunks (l : List String) : String := l.foldl (· ++ ·) ""

/-- Modelled from the spec: the persistence performed by a successful
session-bound `StreamableAgent.invoke` — `RunnableWithMessageHistory` is
library code not present in the repository; per spec 4.3 `Persisted`, it
appends the human turn and then the assistant turn to the store. -/
def invokePersist (db : ChatDB) (sid : String) (userInput output : String) : ChatDB :=
  historyAppend (historyAppend db sid ⟨"HumanMessage", userInput⟩) sid
    ⟨"AIMessage", output⟩

/-- Shallow embedding of `get_chatbot_response_stream` from
`streamlit_app.py` for a turn whose generation completes: returns the
fragments yielded to the UI and the database state after the post-stream
save.  On a successful `invoke`, the history wrapper persists that second
invocation's output; if `invoke` raises, the fallback writes the user input
and the streamed concatenation directly (and if that also raises, nothing
is persisted). -/
def get_chatbot_response_stream (db : ChatDB) (sid : String)
    (userInput : String) (o : TurnOracle) : List String × ChatDB :=
  let yielded := o.streamChunks.filter (fun c => c ≠ "")
  match o.invokeResult with
  | .ok out => (yielded, invokePersist db sid userInput out)
  | .error _ =>
    if o.fallbackOk then
      (yielded, invokePersist db sid userInput (concatChunks yielded))
    else (yielded, db)

/-- The UI-facing message record (the `Message` dataclass). -/
structure UiMessage where
  origin : String
  message : String
deriving DecidableEq, Repr

/-- Greeting shown for a session with no stored history. -/
def greetingMsg : UiMessage :=
  ⟨"assistant", "Hi! I'm Tripy, your personal travel planning assistant. Tell me where you'd like to go and I'll help plan your perfect trip!"⟩

/-- The relevant slice of `st.session_state`; a `none` field models a key
absent from the Streamlit session state.  The cached `travel_agent` is
represented by the session id it was built for (`get_travel_agent`
binds the agent's message history to that session). -/
structure SessionState where
  current_session_id : String
  travel_agent : Option String
  agent_session_id : Option String
  history : Option (List UiMessage)
  last_loaded_session_id : Option String
deriving DecidableEq, Repr

/-- Shallow embedding of `switch_session` from `streamlit_app.py`: rebinds
the current session pointer and deletes the cached agent, the memory and
the history-reload marker. -/
def switch_session (sid : String) (st : SessionState) : SessionState :=
  { st with current_session_id := sid, travel_agent := none,
            last_loaded_session_id := none }

/-- History list rebuilt from the database, as `initialize_session_state`
does: the stored turns re-tagged for the UI, or the greeting when the
session has no stored turns. -/
def loadedHistory (db : ChatDB) (sid : String) : List UiMessage :=
  let dbh := get_chat_history_for_session db sid
  if dbh ≠ [] then
    dbh.map (fun m =>
      ⟨if m.origin = "human" then "human" else "assistant", m.content⟩)
  else [greetingMsg]

/-- Shallow embedding of `initialize_chatbot` from `streamlit_app.py` (name
shortened here): rebuilds the agent bound to the current session whenever
no agent is cached or the cached one is tagged with another session. -/
def init_chatbot (st : SessionState) : SessionState :=
  if st.travel_agent = none ∨ st.agent_session_id ≠ some st.current_session_id then
    { st with travel_agent := some st.current_session_id,
              agent_session_id := some st.current_session_id }
  else st

/-- History-reload step of `initialize_session_state`: rebuild
`st.session_state.history` from the database when it is absent or was
loaded for another session. -/
def reload_history (db : ChatDB) (st : SessionState) : SessionState :=
  if st.history = none ∨ st.last_loaded_session_id ≠ some st.current_session_id then
    { st with history := some (loadedHistory db st.current_session_id),
              last_loaded_session_id := some st.current_session_id }
  else st

/-- Shallow embedding of `initialize_session_state` from
`streamlit_app.py` (name shortened here), for a state whose
`current_session_id` is already present: the history reload followed by
`init_chatbot`. -/
def init_session_state (db : ChatDB) (st : SessionState) : SessionState :=
  init_chatbot (reload_history db st)

/-! ## Spec-side reformulation of the forecast aggregation (for claim C6) -/

/-- Spec-side per-date summary, following the claim's words: over the
entries of one calendar date, the minimum of the per-entry minimum
temperatures, the maximum of the per-entry maximum temperatures, and the
first description seen.  The empty branch is never reached for a date that
actually occurs. -/
def specDayAgg (entries : List ForecastEntry) (d : String) : DayAgg :=
  match entries.filter (fun e => dateOf e = d) with
  | [] => ⟨0, 0, ""⟩
  | e :: rest =>
    ⟨(rest.map (·.temp_min)).foldl min e.temp_min,
     (rest.map (·.temp_max)).foldl max e.temp_max,
     e.description⟩

/-- Spec-side forecast summary, following the claim's words: the first 5
distinct calendar dates in encounter order, each with its per-date
min/max/first-description summary. -/
def specForecastTop5 (entries : List ForecastEntry) : List (String × DayAgg) :=
  ((distinctKeepFirst (entries.map dateOf)).take 5).map
    (fun d => (d, specDayAgg entries d))

/-- Merge of an optional existing bucket with one more entry, as the dict
loop body does. -/
def updOpt (o : Option DayAgg) (e : ForecastEntry) : DayAgg :=
  match o with
  | none => initAgg e
  | some a => stepAgg a e

/-- First-match association lookup, used to reason about the dict model. -/
def lookupD (d : String) : List (String × DayAgg) → Option DayAgg
  | [] => none
  | (k, a) :: rest => if k = d then some a else lookupD d rest

theorem insertEntry_keys (acc : List (String × DayAgg)) (e : ForecastEntry) :
    (insertEntry acc e).map Prod.fst =
      if dateOf e ∈ acc.map Prod.fst then acc.map Prod.fst
      else acc.map Prod.fst ++ [dateOf e] := by
  induction acc with
  | nil => simp [insertEntry]
  | cons p rest ih =>
    obtain ⟨d, a⟩ := p
    by_cases hd : d = dateOf e
    · subst hd
      simp [insertEntry]
    · simp only [insertEntry, if_neg hd, List.map_cons, List.mem_cons]
      rw [ih]
      by_cases hm : dateOf e ∈ rest.map Prod.fst
      · simp [hm, Ne.symm hd]
      · simp [hm, Ne.symm hd]

theorem lookupD_insertEntry (acc : List (String × DayAgg)) (e : ForecastEntry)
    (x : String) :
    lookupD x (insertEntry acc e) =
      if dateOf e = x then some (updOpt (lookupD x acc) e)
      else lookupD x acc := by
  induction acc with
  | nil =>
    by_cases h : dateOf e = x <;> simp [insertEntry, lookupD, updOpt, h]
  | cons p rest ih =>
    obtain ⟨d, a⟩ := p
    by_cases hd : d = dateOf e
    · subst hd
      by_cases hx : dateOf e = x
      · simp [insertEntry, lookupD, updOpt, hx]
      · simp [insertEntry, lookupD, updOpt, hx]
    · by_cases hx : d = x
      · subst hx
        have hne : dateOf e ≠ d := fun h => hd h.symm
        simp [insertEntry, hd, lookupD, hne]
      · simp [insertEntry, hd, lookupD, hx, ih]

theorem dkfAux_congr (l : List String) : ∀ s1 s2 : List String,
    (∀ x, x ∈ s1 ↔ x ∈ s2) → dkfAux s1 l = dkfAux s2 l := by
  induction l with
  | nil => intro s1 s2 _; rfl
  | cons s rest ih =>
    intro s1 s2 h
    by_cases hs : s ∈ s1
    · rw [dkfAux, if_pos hs, dkfAux, if_pos ((h s).mp hs)]
      exact ih s1 s2 h
    · have hs2 : s ∉ s2 := fun hx => hs ((h s).mpr hx)
      rw [dkfAux, if_neg hs, dkfAux, if_neg hs2]
      refine congrArg (s :: ·) (ih _ _ ?_)
      intro x
      simp only [List.mem_cons]
      exact or_congr Iff.rfl (h x)

theorem dkfAux_mem (l : List String) : ∀ (seen : List String) (x : String),
    x ∈ dkfAux seen l ↔ x ∈ l ∧ x ∉ seen := by
  induction l with
  | nil => intro seen x; simp [dkfAux]
  | cons s rest ih =>
    intro seen x
    by_cases hs : s ∈ seen
    · rw [dkfAux, if_pos hs, ih]
      simp only [List.mem_cons]
      constructor
      · rintro ⟨h1, h2⟩; exact ⟨Or.inr h1, h2⟩
      · rintro ⟨rfl | h1, h2⟩
        · exact absurd hs h2
        · exact ⟨h1, h2⟩
    · rw [dkfAux, if_neg hs]
      simp only [List.mem_cons, ih, List.mem_cons]
      constructor
      · rintro (rfl | ⟨h1, h2⟩)
        · exact ⟨Or.inl rfl, hs⟩
        · exact ⟨Or.inr h1, fun hx => h2 (Or.inr hx)⟩
      · rintro ⟨rfl | h1, h2⟩
        · exact Or.inl rfl
        · by_cases hxs : x = s
          · exact Or.inl hxs
          · exact Or.inr ⟨h1, by rintro (rfl | hx); exacts [hxs rfl, h2 hx]⟩

theorem dkfAux_nodup (l : List String) : ∀ seen : List String,
    (dkfAux seen l).Nodup := by
  induction l with
  | nil => intro seen; simp [dkfAux]
  | cons s rest ih =>
    intro seen
    by_cases hs : s ∈ seen
    · rw [dkfAux, if_pos hs]; exact ih seen
    · rw [dkfAux, if_neg hs]
      refine List.nodup_cons.mpr ⟨?_, ih _⟩
      intro hmem
      exact ((dkfAux_mem rest (s :: seen) s).mp hmem).2 (List.mem_cons_self s seen)

theorem dkfAux_pairwise_indexOf (l : List String) : ∀ seen : List String,
    (dkfAux seen l).Pairwise (fun a b => l.indexOf a < l.indexOf b) := by
  induction l with
  | nil => intro seen; simp [dkfAux]
  | cons s rest ih =>
    intro seen
    by_cases hs : s ∈ seen
    · rw [dkfAux, if_pos hs]
      refine (ih seen).imp_of_mem ?_
      intro a b ha hb hab
      have has : a ≠ s := fun h =>
        ((dkfAux_mem rest seen a).mp ha).2 (h ▸ hs)
      have hbs : b ≠ s := fun h =>
        ((dkfAux_mem rest seen b).mp hb).2 (h ▸ hs)
      rw [List.indexOf_cons_ne _ (Ne.symm has), List.indexOf_cons_ne _ (Ne.symm hbs)]
      omega
    · rw [dkfAux, if_neg hs]
      refine List.pairwise_cons.mpr ⟨?_, ?_⟩
      · intro b hb
        have hbs : b ≠ s := fun h =>
          ((dkfAux_mem rest (s :: seen) b).mp hb).2 (h ▸ List.mem_cons_self s seen)
        rw [List.indexOf_cons_self, List.indexOf_cons_ne _ (Ne.symm hbs)]
        omega
      · refine (ih (s :: seen)).imp_of_mem ?_
        intro a b ha hb hab
        have has : a ≠ s := fun h =>
          ((dkfAux_mem rest (s :: seen) a).mp ha).2 (h ▸ List.mem_cons_self s seen)
        have hbs : b ≠ s := fun h =>
          ((dkfAux_mem rest (s :: seen) b).mp hb).2 (h ▸ List.mem_cons_self s seen)
        rw [List.indexOf_cons_ne _ (Ne.symm has), List.indexOf_cons_ne _ (Ne.symm hbs)]
        omega

theorem foldl_insertEntry_keys (entries : List ForecastEntry) :
    ∀ acc : List (String × DayAgg),
      (entries.foldl insertEntry acc).map Prod.fst =
        acc.map Prod.fst ++ dkfAux (acc.map Prod.fst) (entries.map dateOf) := by
  induction entries with
  | nil => intro acc; simp [dkfAux]
  | cons e rest ih =>
    intro acc
    simp only [List.foldl_cons, List.map_cons]
    rw [ih (insertEntry acc e), insertEntry_keys]
    by_cases hm : dateOf e ∈ acc.map Prod.fst
    · rw [if_pos hm, dkfAux, if_pos hm]
    · rw [if_neg hm, dkfAux, if_neg hm]
      rw [dkfAux_congr (rest.map dateOf)
            (acc.map Prod.fst ++ [dateOf e]) (dateOf e :: acc.map Prod.fst)
            (by intro x; simp [or_comm])]
      simp

theorem foldl_insertEntry_lookup (entries : List ForecastEntry) :
    ∀ (acc : List (String × DayAgg)) (x : String),
      lookupD x (entries.foldl insertEntry acc) =
        (entries.filter (fun e => dateOf e = x)).foldl
          (fun o e => some (updOpt o e)) (lookupD x acc) := by
  induction entries with
  | nil => intro acc x; rfl
  | cons e rest ih =>
    intro acc x
    simp only [List.foldl_cons, List.filter_cons]
    rw [ih (insertEntry acc e), lookupD_insertEntry]
    by_cases hx : dateOf e = x
    · simp [hx]
    · simp [hx]

theorem foldl_updOpt_some (l : List ForecastEntry) :
    ∀ a : DayAgg,
      l.foldl (fun o e => some (updOpt o e)) (some a) = some (l.foldl stepAgg a) := by
  induction l with
  | nil => intro a; rfl
  | cons e rest ih => intro a; simp only [List.foldl_cons, updOpt]; exact ih _

theorem foldl_stepAgg_eq (l : List ForecastEntry) :
    ∀ a : DayAgg,
      l.foldl stepAgg a =
        ⟨(l.map (·.temp_min)).foldl min a.temp_min,
         (l.map (·.temp_max)).foldl max a.temp_max, a.description⟩ := by
  induction l with
  | nil => intro a; rfl
  | cons e rest ih =>
    intro a
    simp only [List.foldl_cons, List.map_cons]
    rw [ih]
    rfl

theorem lookupD_eq_none (x : String) (l : List (String × DayAgg))
    (h : x ∉ l.map Prod.fst) : lookupD x l = none := by
  induction l with
  | nil => rfl
  | cons p rest ih =>
    obtain ⟨k, a⟩ := p
    simp only [List.map_cons, List.mem_cons] at h
    push_neg at h
    rw [lookupD, if_neg (fun hk => h.1 hk.symm)]
    exact ih h.2

theorem lookupD_map_keys (ks : List String) (f : String → DayAgg) (x : String) :
    lookupD x (ks.map (fun k => (k, f k))) =
      if x ∈ ks then some (f x) else none := by
  induction ks with
  | nil => simp [lookupD]
  | cons k rest ih =>
    by_cases hk : k = x
    · subst hk
      simp [lookupD]
    · simp only [List.map_cons, lookupD, if_neg hk, ih, List.mem_cons]
      by_cases hx : x ∈ rest
      · simp [hx]
      · simp [hx, Ne.symm hk]

theorem assoc_ext (l1 : List (String × DayAgg)) :
    ∀ l2 : List (String × DayAgg),
      l1.map Prod.fst = l2.map Prod.fst →
      (l1.map Prod.fst).Nodup →
      (∀ x, lookupD x l1 = lookupD x l2) → l1 = l2 := by
  induction l1 with
  | nil =>
    intro l2 hk _ _
    cases l2 with
    | nil => rfl
    | cons q t2 => simp at hk
  | cons p t1 ih =>
    intro l2 hk hn hl
    obtain ⟨k, a⟩ := p
    cases l2 with
    | nil => simp at hk
    | cons q t2 =>
      obtain ⟨k2, b⟩ := q
      simp only [List.map_cons, List.cons.injEq] at hk
      obtain ⟨hkk, htk⟩ := hk
      subst hkk
      have hvals := hl k
      simp only [lookupD, if_pos rfl] at hvals
      have hab : a = b := Option.some.injEq a b ▸ hvals
      subst hab
      simp only [List.map_cons, List.nodup_cons] at hn
      have ht : t1 = t2 := by
        refine ih t2 htk hn.2 ?_
        intro x
        by_cases hx : k = x
        · subst hx
          rw [lookupD_eq_none k t1 hn.1, lookupD_eq_none k t2 (htk ▸ hn.1)]
        · have := hl x
          rwa [lookupD, if_neg hx, lookupD, if_neg hx] at this
      rw [ht]

theorem day_forecasts_keys (entries : List ForecastEntry) :
    (day_forecasts entries).map Prod.fst = distinctKeepFirst (entries.map dateOf) := by
  simpa [day_forecasts, distinctKeepFirst] using foldl_insertEntry_keys entries []

theorem specDayAgg_of_filter (entries : List ForecastEntry) (x : String)
    (e : ForecastEntry) (rest : List ForecastEntry)
    (hf : entries.filter (fun e => dateOf e = x) = e :: rest) :
    specDayAgg entries x =
      ⟨(rest.map (·.temp_min)).foldl min e.temp_min,
       (rest.map (·.temp_max)).foldl max e.temp_max, e.description⟩ := by
  unfold specDayAgg
  rw [hf]

theorem foldl_updOpt_cons (e : ForecastEntry) (rest : List ForecastEntry) :
    (e :: rest).foldl (fun o e => some (updOpt o e)) none =
      some (rest.foldl stepAgg (initAgg e)) := by
  simp only [List.foldl_cons]
  rw [foldl_updOpt_some]
  rfl

theorem day_forecasts_lookup (entries : List ForecastEntry) (x : String) :
    lookupD x (day_forecasts entries) =
      if x ∈ entries.map dateOf then some (specDayAgg entries x) else none := by
  have h := foldl_insertEntry_lookup entries [] x
  simp only [day_forecasts]
  by_cases hx : x ∈ entries.map dateOf
  · rw [if_pos hx]
    have hne : entries.filter (fun e => dateOf e = x) ≠ [] := by
      simp only [ne_eq, List.filter_eq_nil_iff]
      push_neg
      obtain ⟨e, he, hde⟩ := List.mem_map.mp hx
      exact ⟨e, he, by simp [hde]⟩
    obtain ⟨e, rest, hf⟩ : ∃ e rest, entries.filter (fun e => dateOf e = x) = e :: rest := by
      cases hfe : entries.filter (fun e => dateOf e = x) with
      | nil => exact absurd hfe hne
      | cons e rest => exact ⟨e, rest, rfl⟩
    rw [h, hf]
    simp only [lookupD]
    rw [foldl_updOpt_cons, foldl_stepAgg_eq, specDayAgg_of_filter entries x e rest hf]
    rfl
  · rw [if_neg hx, h]
    have hfe : entries.filter (fun e => dateOf e = x) = [] := by
      simp only [List.filter_eq_nil_iff]
      intro a ha hda
      simp only [decide_eq_true_eq] at hda
      exact hx (List.mem_map.mpr ⟨a, ha, hda⟩)
    rw [hfe]
    rfl

theorem day_forecasts_eq_spec (entries : List ForecastEntry) :
    day_forecasts entries =
      (distinctKeepFirst (entries.map dateOf)).map
        (fun d => (d, specDayAgg entries d)) := by
  apply assoc_ext
  · rw [day_forecasts_keys, List.map_map]
    exact (List.map_id _).symm
  · rw [day_forecasts_keys]
    exact dkfAux_nodup _ _
  · intro x
    rw [day_forecasts_lookup, lookupD_map_keys]
    have hmem : x ∈ distinctKeepFirst (entries.map dateOf) ↔ x ∈ entries.map dateOf := by
      rw [distinctKeepFirst, dkfAux_mem]
      simp
    by_cases hx : x ∈ entries.map dateOf
    · rw [if_pos hx, if_pos (hmem.mpr hx)]
    · rw [if_neg hx, if_neg (fun h => hx (hmem.mp h))]

/-- C6: for every forecast payload, the forecast-variant formatter groups
entries by calendar date, computes for each date the minimum of the
per-entry minimum temperatures and the maximum of the per-entry maximum
temperatures, keeps the first description seen for that date, and emits
per-day summaries for only the first 5 distinct dates in encounter order.
The source-side dict fold (`forecastTop5`) coincides with the spec-side
group-by reformulation (`specForecastTop5`) on every input. -/
theorem forecast_grouping_first5_spec (entries : List ForecastEntry) :
    forecastTop5 entries = specForecastTop5 entries := by
  rw [forecastTop5, day_forecasts_eq_spec, specForecastTop5, List.map_take]

/-! ## Claim C1: the weather tool resolves every failure to a string -/

/-- C1: for every input and every environment, each weather-tool variant's
`_run` returns a string and never raises past its boundary (both embeddings
are total Lean functions into `String`, with every Python exception
modelled as an `Except.error` that the boundary `match` catches): with the
provider API key unset the single-call variant returns the descriptive
unavailability string; any provider error surfaces as the descriptive
failure string of the respective variant; and a successful wrapper run
returns the formatted report unchanged. -/
theorem weather_tool_string_boundary :
    (∀ (parseFloat : String → Option ℚ) (provider : String → Except String String)
        (city : String) (cc : Option String),
        weatherTool_run none parseFloat provider city cc = unavailableMsg) ∧
    (∀ (k : String) (parseFloat : String → Option ℚ)
        (provider : String → Except String String) (city : String)
        (cc : Option String) (e : String),
        provider (weatherQuery city cc) = .error e →
        weatherTool_run (some k) parseFloat provider city cc =
          "Failed to fetch weather: " ++ e ++ ". Please check your API key and city name.") ∧
    (∀ (construct : Except String Unit)
        (getCurrent : String → Except String CurrentData)
        (getForecast : String → Except String (List ForecastEntry))
        (title : String → String) (city : String) (cc : Option String) (e : String),
        customWrapper_run construct getCurrent getForecast title (weatherQuery city cc) =
          .error e →
        weatherWrapperTool_run construct getCurrent getForecast title city cc =
          "Failed to fetch weather: " ++ e) ∧
    (∀ (construct : Except String Unit)
        (getCurrent : String → Except String CurrentData)
        (getForecast : String → Except String (List ForecastEntry))
        (title : String → String) (city : String) (cc : Option String) (s : String),
        customWrapper_run construct getCurrent getForecast title (weatherQuery city cc) =
          .ok s →
        weatherWrapperTool_run construct getCurrent getForecast title city cc = s) := by
  refine ⟨fun _ _ _ _ => rfl, ?_, ?_, ?_⟩
  · intro k pf provider city cc e h
    simp only [weatherTool_run, h]
  · intro construct gc gf title city cc e h
    simp only [weatherWrapperTool_run, h]
  · intro construct gc gf title city cc s h
    simp only [weatherWrapperTool_run, h]

/-- Provider oracle that always fails, for evaluating the error paths. -/
def demoFailProvider : String → Except String String :=
  fun _ => .error "city not found"

/-- Witness for C1: the error paths evaluated at concrete inputs. -/
theorem weather_tool_string_boundary_witness :
    weatherTool_run (some "k") (fun _ => none) demoFailProvider "Nowhere" none =
      "Failed to fetch weather: city not found. Please check your API key and city name." ∧
    weatherWrapperTool_run (.error "1 validation error for CustomWeatherWrapper")
        (fun _ => .error "unreachable") (fun _ => .error "unreachable") id "Rome" none =
      "Failed to fetch weather: 1 validation error for CustomWeatherWrapper" :=
  ⟨weather_tool_string_boundary.2.1 "k" (fun _ => none) demoFailProvider
      "Nowhere" none "city not found" rfl,
   weather_tool_string_boundary.2.2.1 (.error "1 validation error for CustomWeatherWrapper")
      (fun _ => .error "unreachable") (fun _ => .error "unreachable") id "Rome" none
      "1 validation error for CustomWeatherWrapper" rfl⟩

/-! ## Claim C2: the tool loop is capped at 5 iterations -/

theorem agentLoop_count_le (responses : ℕ → ModelStep) :
    ∀ fuel used : ℕ, (agentLoop responses fuel used).2 ≤ used + fuel := by
  intro fuel
  induction fuel with
  | zero => intro used; simp [agentLoop]
  | succ n ih =>
    intro used
    rw [agentLoop]
    cases h : responses used with
    | finish a => exact Nat.le_add_right used (n + 1)
    | toolCall ti => exact (ih (used + 1)).trans (by omega)

theorem agentLoop_all_tool (responses : ℕ → ModelStep)
    (h : ∀ n, ∃ ti, responses n = ModelStep.toolCall ti) :
    ∀ fuel used : ℕ, (agentLoop responses fuel used).1 = stoppedMsg := by
  intro fuel
  induction fuel with
  | zero => intro used; rfl
  | succ n ih =>
    intro used
    obtain ⟨ti, hti⟩ := h used
    rw [agentLoop, hti]
    exact ih (used + 1)

theorem agentLoop_nonempty (responses : ℕ → ModelStep)
    (h : ∀ n a, responses n = ModelStep.finish a → a ≠ "") :
    ∀ fuel used : ℕ, (agentLoop responses fuel used).1 ≠ "" := by
  intro fuel
  induction fuel with
  | zero => intro used; exact (by decide : stoppedMsg ≠ "")
  | succ n ih =>
    intro used
    rw [agentLoop]
    cases ha : responses used with
    | finish a => exact h used a ha
    | toolCall ti => exact ih (used + 1)

/-- C2: for every sequence of model responses, the orchestration loop built
with `max_iterations=5` terminates within 5 executed tool calls; when the
model requests tool calls indefinitely it returns the non-empty stop
message; and whenever every final model answer is non-empty the returned
string is non-empty. -/
theorem tool_loop_capped :
    (∀ responses : ℕ → ModelStep, (agent_executor_invoke responses).2 ≤ 5) ∧
    (∀ responses : ℕ → ModelStep,
        (∀ n, ∃ ti, responses n = ModelStep.toolCall ti) →
        (agent_executor_invoke responses).1 = stoppedMsg ∧
        (agent_executor_invoke responses).1 ≠ "") ∧
    (∀ responses : ℕ → ModelStep,
        (∀ n a, responses n = ModelStep.finish a → a ≠ "") →
        (agent_executor_invoke responses).1 ≠ "") := by
  refine ⟨?_, ?_, ?_⟩
  · intro responses
    simpa [agent_executor_invoke] using agentLoop_count_le responses 5 0
  · intro responses h
    have hs := agentLoop_all_tool responses h 5 0
    refine ⟨hs, ?_⟩
    rw [agent_executor_invoke] at *
    rw [hs]
    decide
  · intro responses h
    exact agentLoop_nonempty responses h 5 0

/-- Witness for C2: a model that requests a tool call forever is stopped
after 5 tool calls with the non-empty stop message. -/
theorem tool_loop_capped_witness :
    (agent_executor_invoke (fun _ => ModelStep.toolCall "Rome")).1 = stoppedMsg ∧
    (agent_executor_invoke (fun _ => ModelStep.toolCall "Rome")).2 ≤ 5 :=
  ⟨(tool_loop_capped.2.1 (fun _ => ModelStep.toolCall "Rome")
      (fun _ => ⟨"Rome", rfl⟩)).1,
   tool_loop_capped.1 (fun _ => ModelStep.toolCall "Rome")⟩

/-! ## Claim C3: clearing a session empties its history -/

/-- C3: for every session identifier, `delete_chat_session` followed by
`get_chat_history_for_session` yields the empty sequence, the deletion
reports success (`True`), and deleting a session with no stored turns is a
no-op that still reports success. -/
theorem clear_then_read_empty :
    ∀ (db : ChatDB) (sid : String),
      get_chat_history_for_session (delete_chat_session db sid).1 sid = [] ∧
      (delete_chat_session db sid).2 = true ∧
      ((∀ r ∈ db, r.session_id ≠ sid) → delete_chat_session db sid = (db, true)) := by
  intro db sid
  refine ⟨?_, rfl, ?_⟩
  · simp only [get_chat_history_for_session, historyMessages, delete_chat_session,
      historyClear, List.filter_filter]
    have h : List.filter
        (fun a => decide (a.session_id = sid) && decide (¬a.session_id = sid)) db = [] := by
      refine List.filter_eq_nil_iff.mpr ?_
      intro a _
      by_cases hc : a.session_id = sid <;> simp [hc]
    rw [h]
    rfl
  · intro h
    simp only [delete_chat_session, historyClear, Prod.mk.injEq, and_true]
    refine List.filter_eq_self.mpr ?_
    intro a ha
    simpa using h a ha

/-- Rows used to evaluate the store operations on a concrete database. -/
def demoRows : ChatDB :=
  [⟨"A", ⟨"HumanMessage", "plan a trip"⟩⟩,
   ⟨"B", ⟨"AIMessage", "sure"⟩⟩,
   ⟨"A", ⟨"AIMessage", "where to?"⟩⟩]

/-- Witness for C3: on a concrete store, clearing session `A` empties its
readable history, and clearing the absent session `C` is a no-op success. -/
theorem clear_then_read_empty_witness :
    get_chat_history_for_session (delete_chat_session demoRows "A").1 "A" = [] ∧
    delete_chat_session demoRows "C" = (demoRows, true) :=
  ⟨(clear_then_read_empty demoRows "A").1,
   (clear_then_read_empty demoRows "C").2.2 (by decide)⟩

/-! ## Claim C4: session enumeration -/

/-- C4: `get_all_chat_sessions` returns an empty sequence when the
`message_store` table does not exist, and otherwise returns the distinct
session identifiers (no duplicates, exactly those occurring in the table)
in most-recently-active-first order: strictly increasing recency rank,
i.e. reverse row order of the underlying message table. -/
theorem list_sessions_contract :
    get_all_chat_sessions none = [] ∧
    ∀ rows : ChatDB,
      (get_all_chat_sessions (some rows)).Nodup ∧
      (∀ s, s ∈ get_all_chat_sessions (some rows) ↔
        s ∈ rows.map (fun r => r.session_id)) ∧
      (get_all_chat_sessions (some rows)).Pairwise
        (fun a b => recency rows a < recency rows b) := by
  refine ⟨rfl, fun rows => ⟨?_, ?_, ?_⟩⟩
  · exact dkfAux_nodup _ _
  · intro s
    simp only [get_all_chat_sessions, distinctKeepFirst, dkfAux_mem]
    simp
  · exact dkfAux_pairwise_indexOf _ []

/-- Witness for C4: on the concrete store, session `B` is enumerated, and
the enumeration is `["A", "B"]` (session `A` is the most recently active). -/
theorem list_sessions_contract_witness :
    ("B" ∈ get_all_chat_sessions (some demoRows)) ∧
    get_all_chat_sessions (some demoRows) = ["A", "B"] :=
  ⟨((list_sessions_contract.2 demoRows).2.1 "B").mpr (by decide), by decide⟩

/-! ## Claim C10: origin tagging of stored messages -/

/-- C10: `get_chat_history_for_session` tags a stored message as `human`
exactly when its runtime class name is `HumanMessage`, and as `assistant`
in every other case — a stored message that is neither human nor assistant
surfaces tagged `assistant` rather than being rejected or given a third
tag. -/
theorem history_origin_tagging :
    (∀ (db : ChatDB) (sid : String),
        get_chat_history_for_session db sid =
          (historyMessages db sid).map (fun m => ⟨originOf m, m.content⟩)) ∧
    ∀ m : StoredMsg,
      (originOf m = "human" ↔ m.className = "HumanMessage") ∧
      (m.className ≠ "HumanMessage" → originOf m = "assistant") := by
  refine ⟨fun db sid => rfl, fun m => ⟨⟨?_, ?_⟩, ?_⟩⟩
  · intro h
    by_cases hc : m.className = "HumanMessage"
    · exact hc
    · rw [originOf, if_neg hc] at h
      exact absurd h (by decide)
  · intro hc
    rw [originOf, if_pos hc]
  · intro hc
    rw [originOf, if_neg hc]

/-- Witness for C10: a stored `SystemMessage` surfaces tagged `assistant`. -/
theorem history_origin_tagging_witness :
    originOf ⟨"SystemMessage", "you are a travel agent"⟩ = "assistant" :=
  (history_origin_tagging.2 ⟨"SystemMessage", "you are a travel agent"⟩).2 (by decide)

/-! ## Claim C7: what the streaming turn persists -/

/-- A concrete turn in which the stream and the follow-up invocation
produce different texts. -/
def demoTurn : TurnOracle :=
  ⟨["Enjoy "], .ok "Have a great trip!", true⟩

/-- Counterexample to C7 as stated: a completed streamed turn whose
persisted assistant text is the output of the separate `invoke` call
(`"Have a great trip!"`), not the concatenation of the streamed fragments
(`"Enjoy "`). -/
theorem stream_persist_counterexample :
    (get_chatbot_response_stream [] "s1" "hi" demoTurn).2 =
      [⟨"s1", ⟨"HumanMessage", "hi"⟩⟩, ⟨"s1", ⟨"AIMessage", "Have a great trip!"⟩⟩] ∧
    concatChunks (demoTurn.streamChunks.filter (fun c => c ≠ "")) = "Enjoy " ∧
    ("Have a great trip!" : String) ≠ "Enjoy " := by
  refine ⟨rfl, rfl, by decide⟩

/-- C7 as amended: for every turn whose generation completes, the assistant
text persisted is the final output of the separate non-streaming `invoke`
call issued after streaming (which may differ from the streamed text); the
streamed concatenation is persisted only on the fallback path, when that
`invoke` call raises. -/
theorem stream_persist_amended :
    ∀ (db : ChatDB) (sid input : String) (o : TurnOracle),
      (∀ out, o.invokeResult = .ok out →
        (get_chatbot_response_stream db sid input o).2 =
          historyAppend (historyAppend db sid ⟨"HumanMessage", input⟩) sid
            ⟨"AIMessage", out⟩) ∧
      (∀ e, o.invokeResult = .error e → o.fallbackOk = true →
        (get_chatbot_response_stream db sid input o).2 =
          historyAppend (historyAppend db sid ⟨"HumanMessage", input⟩) sid
            ⟨"AIMessage", concatChunks (o.streamChunks.filter (fun c => c ≠ ""))⟩) := by
  intro db sid input o
  constructor
  · intro out h
    simp [get_chatbot_response_stream, h, invokePersist]
  · intro e h hf
    simp [get_chatbot_response_stream, h, hf, invokePersist]

/-- Witness for C7 (amended): on the concrete turn, the persisted rows are
the user input followed by the second invocation's output. -/
theorem stream_persist_amended_witness :
    (get_chatbot_response_stream [] "s1" "hi" demoTurn).2 =
      historyAppend (historyAppend [] "s1" ⟨"HumanMessage", "hi"⟩) "s1"
        ⟨"AIMessage", "Have a great trip!"⟩ :=
  (stream_persist_amended [] "s1" "hi" demoTurn).1 "Have a great trip!" rfl

/-! ## Claim C9: a successful fresh turn appends exactly two rows -/

/-- C9: for every successful turn (the post-stream `invoke` returns a
non-empty final output) in a fresh session, the store afterwards holds for
that session exactly two turns — the human turn first, the assistant turn
second — and the persisted assistant text is non-empty. -/
theorem fresh_turn_two_rows :
    ∀ (db : ChatDB) (sid input : String) (o : TurnOracle) (out : String),
      db.filter (fun r => r.session_id = sid) = [] →
      o.invokeResult = .ok out → out ≠ "" →
      ((get_chatbot_response_stream db sid input o).2).filter
          (fun r => r.session_id = sid) =
        [⟨sid, ⟨"HumanMessage", input⟩⟩, ⟨sid, ⟨"AIMessage", out⟩⟩] ∧
      out ≠ "" := by
  intro db sid input o out hfresh hok hne
  refine ⟨?_, hne⟩
  simp [get_chatbot_response_stream, hok, invokePersist, historyAppend,
    List.filter_append, hfresh]

/-- Witness for C9: a fresh session in a store holding other sessions ends
the turn with exactly the two new rows. -/
theorem fresh_turn_two_rows_witness :
    ((get_chatbot_response_stream [⟨"other", ⟨"HumanMessage", "x"⟩⟩] "s1" "hi"
        demoTurn).2).filter (fun r => r.session_id = "s1") =
      [⟨"s1", ⟨"HumanMessage", "hi"⟩⟩, ⟨"s1", ⟨"AIMessage", "Have a great trip!"⟩⟩] :=
  (fresh_turn_two_rows [⟨"other", ⟨"HumanMessage", "x"⟩⟩] "s1" "hi" demoTurn
    "Have a great trip!" (by decide) rfl (by decide)).1

/-! ## Claim C8: switching sessions does not leak state -/

theorem init_switch_eval (db : ChatDB) (sid : String) (st : SessionState) :
    init_session_state db (switch_session sid st) =
      ⟨sid, some sid, some sid, some (loadedHistory db sid), some sid⟩ := by
  rw [init_session_state, reload_history, if_pos]
  · rw [init_chatbot, if_pos]
    · rfl
    · left
      rfl
  · right
    simp [switch_session]

/-- C8: switching from session `A` to `B` and back to `A` reproduces `A`'s
exact prior history: the switch discards the cached agent, and the
re-initialization rebuilds the history from `A`'s store partition alone —
so as long as `A`'s partition is unchanged (whatever happened to other
sessions in between, `db2` may differ from `db1` outside `A`), the
reloaded history is identical, and the rebuilt agent is bound to `A`. -/
theorem session_switch_roundtrip (db1 db2 : ChatDB) (A B : String)
    (st0 : SessionState)
    (hpart : db2.filter (fun r => r.session_id = A) =
      db1.filter (fun r => r.session_id = A)) :
    (init_session_state db2 (switch_session A
        (init_session_state db1 (switch_session B
          (init_session_state db1 (switch_session A st0)))))).history =
      (init_session_state db1 (switch_session A st0)).history ∧
    (init_session_state db1 (switch_session A st0)).history =
      some (loadedHistory db1 A) ∧
    (switch_session B (init_session_state db1 (switch_session A st0))).travel_agent =
      none ∧
    (init_session_state db2 (switch_session A
        (init_session_state db1 (switch_session B
          (init_session_state db1 (switch_session A st0)))))).travel_agent = some A := by
  have hload : loadedHistory db2 A = loadedHistory db1 A := by
    simp only [loadedHistory, get_chat_history_for_session, historyMessages, hpart]
  refine ⟨?_, ?_, ?_, ?_⟩
  · rw [init_switch_eval, init_switch_eval, hload]
  · rw [init_switch_eval]
  · rw [init_switch_eval]
    rfl
  · rw [init_switch_eval]

/-- Store used to evaluate the session round trip: `db2` extends `db1` with
activity in session `B` only. -/
def demoDb1 : ChatDB := [⟨"A", ⟨"HumanMessage", "hello"⟩⟩, ⟨"A", ⟨"AIMessage", "hi!"⟩⟩]

/-- Same store after extra turns in session `B`. -/
def demoDb2 : ChatDB := demoDb1 ++ [⟨"B", ⟨"HumanMessage", "other"⟩⟩]

/-- Witness for C8: on the concrete stores, the round trip `A → B → A`
reproduces `A`'s history exactly. -/
theorem session_switch_roundtrip_witness :
    (init_session_state demoDb2 (switch_session "A"
        (init_session_state demoDb1 (switch_session "B"
          (init_session_state demoDb1 (switch_session "A"
            ⟨"X", none, none, none, none⟩)))))).history =
      (init_session_state demoDb1 (switch_session "A"
        ⟨"X", none, none, none, none⟩)).history :=
  (session_switch_roundtrip demoDb1 demoDb2 "A" "B"
    ⟨"X", none, none, none, none⟩ (by decide)).1

/-! ## Claim C5: travel-advice selection -/

/-- Float-parse oracle for the concrete run: parses the token `20`. -/
def demoParse : String → Option ℚ :=
  fun s => if s = "20" then some 20 else none

/-- Provider oracle returning a fixed report with temperature 20°C and
humidity 80%. -/
def demoProvider : String → Except String String :=
  fun _ => .ok "Temperature: 20°C\nHumidity: 80%"

/-- Output of the single-call variant on the concrete report. -/
def demoV1Out : String :=
  weatherTool_run (some "key") demoParse demoProvider "Rome" none

/-- Counterexample to C5 as stated: a weather result with parseable
temperature 20°C and humidity 80% for which the single-call variant
(`weather_tool.py`) emits only the moderate-temperature advice line and no
humidity comfort note at all, although humidity is strictly above 70%. -/
theorem weather_humidity_note_counterexample :
    demoV1Out =
      "Temperature: 20°C\nHumidity: 80%" ++
        "\n\nTravel Tips based on current conditions:\n" ++
        "Comfortable weather - pack layers for versatility!\n" ∧
    strContains demoV1Out "High humidity" = false := by
  refine ⟨by decide, by decide⟩

theorem strContains_format_tips (title : String → String) (cur : CurrentData)
    (fc : Option (List ForecastEntry)) (pat : String)
    (h : strContains (travelTipsV2 (roundHalfEven cur.temp) cur.humidity) pat = true) :
    strContains (format_weather title cur fc) pat = true := by
  rw [format_weather.eq_def]
  exact strContains_append_right _ _ _ h

/-- C5 as amended: the temperature-keyed advice holds in both variants
(computed on the parsed value in the single-call variant and on the
rounded current temperature in the forecast variant), but the
humidity-above-70 comfort note is emitted by the forecast-wrapper variant
only; the single-call variant emits no humidity note. -/
theorem weather_advice_amended :
    (∀ (k : String) (parseFloat : String → Option ℚ)
        (provider : String → Except String String) (city : String)
        (cc : Option String) (result : String) (tok : List Char) (t : ℚ),
        provider (weatherQuery city cc) = .ok result →
        containsSub "°C".data result.data = true →
        (splitWs (takeBefore "°C".data result.data)).getLast? = some tok →
        parseFloat (String.mk tok) = some t →
        (t < 10 → strContains (weatherTool_run (some k) parseFloat provider city cc)
            "Pack warm clothes - great for indoor activities like museums!\n" = true) ∧
        (¬ t < 10 → t > 25 →
          strContains (weatherTool_run (some k) parseFloat provider city cc)
            "Pack light clothes, sunscreen, and stay hydrated!\n" = true) ∧
        (¬ t < 10 → ¬ t > 25 →
          strContains (weatherTool_run (some k) parseFloat provider city cc)
            "Comfortable weather - pack layers for versatility!\n" = true)) ∧
    (∀ (title : String → String) (cur : CurrentData)
        (fc : Option (List ForecastEntry)),
        (roundHalfEven cur.temp < 10 →
          strContains (format_weather title cur fc)
            "\nTravel Tips:\n * Pack warm clothes and enjoy indoor activities.\n" = true) ∧
        (¬ roundHalfEven cur.temp < 10 → roundHalfEven cur.temp > 25 →
          strContains (format_weather title cur fc)
            "\nTravel Tips:\n * Pack light clothes, stay hydrated, and use sunscreen.\n" = true) ∧
        (¬ roundHalfEven cur.temp < 10 → ¬ roundHalfEven cur.temp > 25 →
          strContains (format_weather title cur fc)
            "\nTravel Tips:\n * Comfortable weather, pack layers for changes.\n" = true) ∧
        (cur.humidity > 70 →
          strContains (format_weather title cur fc)
            " * High humidity, dress comfortably.\n" = true)) := by
  constructor
  · intro k pf provider city cc result tok t hres hcel htok hparse
    have hout : weatherTool_run (some k) pf provider city cc =
        (result ++ "\n\nTravel Tips based on current conditions:\n") ++
          tempAdviceV1 t := by
      simp only [weatherTool_run, hres, hcel, htok, hparse, if_true]
    refine ⟨?_, ?_, ?_⟩
    · intro ht
      rw [hout, tempAdviceV1, if_pos ht]
      exact strContains_append_right _ _ _ (strContains_self _)
    · intro ht1 ht2
      rw [hout, tempAdviceV1, if_neg ht1, if_pos ht2]
      exact strContains_append_right _ _ _ (strContains_self _)
    · intro ht1 ht2
      rw [hout, tempAdviceV1, if_neg ht1, if_neg ht2]
      exact strContains_append_right _ _ _ (strContains_self _)
  · intro title cur fc
    refine ⟨?_, ?_, ?_, ?_⟩
    · intro ht
      refine strContains_format_tips title cur fc _ ?_
      rw [travelTipsV2, if_pos ht]
      exact strContains_append_left _ _ _ (strContains_self _)
    · intro ht1 ht2
      refine strContains_format_tips title cur fc _ ?_
      rw [travelTipsV2, if_neg ht1, if_pos ht2]
      exact strContains_append_left _ _ _ (strContains_self _)
    · intro ht1 ht2
      refine strContains_format_tips title cur fc _ ?_
      rw [travelTipsV2, if_neg ht1, if_neg ht2]
      exact strContains_append_left _ _ _ (strContains_self _)
    · intro hh
      refine strContains_format_tips title cur fc _ ?_
      rw [travelTipsV2, if_pos hh]
      exact strContains_append_right _ _ _ (strContains_self _)

/-- Current-conditions payload used to evaluate the forecast variant: a
cold reading with high humidity. -/
def demoCur : CurrentData := ⟨"Rome", "IT", 5, 4, "clear sky", 80⟩

/-- Witness for C5 (amended): the single-call variant evaluated on the
20°C report emits the moderate advice line, and the forecast variant
evaluated on a 5°C / 80% reading emits the cold-weather advice and the
humidity comfort note. -/
theorem weather_advice_amended_witness :
    strContains demoV1Out
      "Comfortable weather - pack layers for versatility!\n" = true ∧
    strContains (format_weather id demoCur none)
      "\nTravel Tips:\n * Pack warm clothes and enjoy indoor activities.\n" = true ∧
    strContains (format_weather id demoCur none)
      " * High humidity, dress comfortably.\n" = true :=
  ⟨(weather_advice_amended.1 "key" demoParse demoProvider "Rome" none
      "Temperature: 20°C\nHumidity: 80%" "20".data 20 rfl (by decide) (by decide)
      (by decide)).2.2 (by decide) (by decide),
   (weather_advice_amended.2 id demoCur none).1 (by decide),
   (weather_advice_amended.2 id demoCur none).2.2.2 (by decide)⟩
